import Mathlib

set_option maxRecDepth 16384

/-!
Verification of the streaming token relay of the serverless LLM sample.

The development shallowly embeds the three Lambda handlers that contain the
relay logic:

* `lambda_functions/appsync/processing.py` — `process_streaming_request`
  (the broadcast variant, publishing fragments through
  `publish_token_to_appsync`, which returns a boolean and never raises) and
  its SQS batch `lambda_handler`;
* `lambda_functions/websocket_api/stream.py` — `lambda_handler`
  (the websocket variant, pushing messages through `post_to_connection`,
  which can raise a `GoneException` or another client error);
* `lambda_functions/appsync/request.py` — `lambda_handler`
  (the session initiator).

The Bedrock response stream is modelled as a finite list of already-parsed
chunk events plus a flag saying whether the iteration raises after the
listed events (a mid-stream failure is represented by listing only the
prefix that was yielded before the raise).  The transport is modelled as an
oracle mapping the index of each send call (0-based, in call order) to its
result.
-/

/-- Result of one sink send call in the websocket variant: the
`post_to_connection` call either succeeds, raises a `GoneException`, or
raises some other `ClientError` (stream.py lines 146-170). -/
inductive SinkRes
  | ok
  | gone
  | otherError
deriving DecidableEq, Repr

/-- One event of the Bedrock response stream as the relay loop sees it:
either a record without a `chunk` key, or a chunk whose decoded JSON has
the given `type` and (possibly empty) `delta.text`
(processing.py lines 206-214, stream.py lines 136-144). -/
inductive SrcItem
  | noChunk
  | chunkOf (ctype : String) (text : String)
deriving DecidableEq, Repr

/-- The filter both relay loops apply to a stream event: the event
contributes a token exactly when it has a `chunk` key, its `type` is
`content_block_delta`, and its `delta.text` is non-empty
(the nested `if "chunk" in chunk`, `if chunk_data.get("type") ==
"content_block_delta"`, `if text:` tests). -/
def deltaText : SrcItem → Option String
  | SrcItem.noChunk => none
  | SrcItem.chunkOf ctype text =>
      if ctype = "content_block_delta" ∧ text ≠ "" then some text else none

/-- A message sent over the websocket connection: a token payload
(`type: token` with `token` and `sequence` fields, stream.py lines
149-158), the completion payload (`type: complete` with `total_tokens`,
lines 173-183), or an error payload (`type: error` with `message`,
lines 198-208). -/
inductive WsMsg
  | token (text : String) (sequence : Nat)
  | complete (total_tokens : Nat)
  | error (message : String)
deriving DecidableEq, Repr

/-- How the websocket token loop (stream.py lines 136-170) terminated:
the stream was exhausted, the loop hit `break` after a `GoneException`,
or a non-gone `ClientError` was re-raised out of the loop. -/
inductive ExitKind
  | natural
  | goneBreak
  | sinkRaise
deriving DecidableEq, Repr

/-- State produced by the websocket token loop: the send calls made so far
(message and result, in order), the final `token_count`, the index of the
next sink call, and how the loop exited. -/
structure LoopSt where
  msgs : List (WsMsg × SinkRes)
  token_count : Nat
  callIdx : Nat
  exit : ExitKind
deriving Repr

/-- The websocket token loop, stream.py lines 136-170: for each chunk that
passes the content filter, `token_count` is incremented and the token is
posted; a `GoneException` breaks out of the loop, any other `ClientError`
is re-raised. -/
def wsLoop (sink : Nat → SinkRes) : List SrcItem → Nat → Nat → LoopSt
  | [], count, idx => ⟨[], count, idx, ExitKind.natural⟩
  | item :: rest, count, idx =>
    match deltaText item with
    | none => wsLoop sink rest count idx
    | some text =>
      match sink idx with
      | SinkRes.ok =>
          let s := wsLoop sink rest (count + 1) (idx + 1)
          ⟨(WsMsg.token text (count + 1), SinkRes.ok) :: s.msgs,
           s.token_count, s.callIdx, s.exit⟩
      | SinkRes.gone =>
          ⟨[(WsMsg.token text (count + 1), SinkRes.gone)],
           count + 1, idx + 1, ExitKind.goneBreak⟩
      | SinkRes.otherError =>
          ⟨[(WsMsg.token text (count + 1), SinkRes.otherError)],
           count + 1, idx + 1, ExitKind.sinkRaise⟩

/-- Terminal control paths of one websocket relay run (the HTTP status is
200 on every path; `Outcome` records which terminal branch of
stream.py ran): `completed` — the loop ended naturally and the outer
error handler never ran; `sinkGone` — the loop broke on a `GoneException`
(lines 161-167) and the outer error handler never ran; `failed` — the
outer `except` block at lines 192-211 ran.  Each carries the final
`token_count`. -/
inductive Outcome
  | completed (total : Nat)
  | sinkGone (tokensSent : Nat)
  | failed (tokensSent : Nat)
deriving DecidableEq, Repr

/-- The tail of the websocket handler after the token loop, stream.py
lines 172-211: if the loop re-raised a client error, or the source itself
raised after the loop consumed every listed event, the outer handler posts
one best-effort error message (its own failure is swallowed by the bare
`except`).  Otherwise the completion message is posted; a `GoneException`
there is swallowed, while any other `ClientError` is re-raised into the
outer handler, which then posts the error message. -/
def wsFinish (sink : Nat → SinkRes) (errMsg : String) :
    LoopSt → Bool → List (WsMsg × SinkRes) × Outcome
  | ⟨ms, count, idx, ExitKind.sinkRaise⟩, _ =>
      (ms ++ [(WsMsg.error errMsg, sink idx)], Outcome.failed count)
  | ⟨ms, count, idx, ExitKind.natural⟩, true =>
      (ms ++ [(WsMsg.error errMsg, sink idx)], Outcome.failed count)
  | ⟨ms, count, idx, ExitKind.goneBreak⟩, _ =>
      match sink idx with
      | SinkRes.otherError =>
          (ms ++ [(WsMsg.complete count, SinkRes.otherError),
                  (WsMsg.error errMsg, sink (idx + 1))],
           Outcome.failed count)
      | r => (ms ++ [(WsMsg.complete count, r)], Outcome.sinkGone count)
  | ⟨ms, count, idx, ExitKind.natural⟩, false =>
      match sink idx with
      | SinkRes.otherError =>
          (ms ++ [(WsMsg.complete count, SinkRes.otherError),
                  (WsMsg.error errMsg, sink (idx + 1))],
           Outcome.failed count)
      | r => (ms ++ [(WsMsg.complete count, r)], Outcome.completed count)

/-- The relay body of stream.py `lambda_handler` (lines 112-211): run the
token loop over the stream, then the completion/error tail.  `srcFails`
says whether iterating the Bedrock stream raises after yielding the listed
events; `errMsg` stands for `str(e)` of the exception that reaches the
outer handler. -/
def wsRelay (sink : Nat → SinkRes) (src : List SrcItem) (srcFails : Bool)
    (errMsg : String) : List (WsMsg × SinkRes) × Outcome :=
  wsFinish sink errMsg (wsLoop sink src 0 0) srcFails

/-- Result of the websocket `lambda_handler` seen from API Gateway: the
400 response returned when the request body is not valid JSON
(stream.py lines 98-100), or a completed run (statusCode 200) recording
the prompt that was used and the relay activity. -/
inductive WsHandlerResult
  | badRequest
  | ran (prompt : String) (sends : List (WsMsg × SinkRes)) (outcome : Outcome)
deriving Repr

/-- stream.py `lambda_handler`, lines 89-223: parse the body (a JSON
object modelled as a string-valued key/value list, `none` when
`json.loads` raises), default the prompt to "Hello, how are you?", and run
the relay. -/
def ws_lambda_handler (body : Option (List (String × String)))
    (sink : Nat → SinkRes) (src : List SrcItem) (srcFails : Bool)
    (errMsg : String) : WsHandlerResult :=
  match body with
  | none => WsHandlerResult.badRequest
  | some kvs =>
      let prompt := (kvs.lookup "prompt").getD "Hello, how are you?"
      let r := wsRelay sink src srcFails errMsg
      WsHandlerResult.ran prompt r.1 r.2

/-- Arguments of one `publish_token_to_appsync` call (processing.py lines
36-38): the published token text, the `is_complete` flag and the sequence
number.  The session id, endpoint and region are fixed per run and
omitted. -/
structure PubCall where
  token : String
  is_complete : Bool
  sequence : Nat
deriving DecidableEq, Repr

/-- State produced by the broadcast token loop: the publish calls made so
far (arguments and boolean result, in order), the final `token_count` and
the index of the next publish call. -/
structure PsSt where
  calls : List (PubCall × Bool)
  token_count : Nat
  callIdx : Nat
deriving Repr

/-- The broadcast token loop, processing.py lines 206-230: for each chunk
that passes the content filter, `token_count` is incremented and the token
is published.  `publish_token_to_appsync` returns a boolean and never
raises (it catches every exception, lines 145-149); the loop stores the
result in `success` but never tests it, so it continues regardless. -/
def psLoop (sink : Nat → Bool) : List SrcItem → Nat → Nat → PsSt
  | [], count, idx => ⟨[], count, idx⟩
  | item :: rest, count, idx =>
    match deltaText item with
    | none => psLoop sink rest count idx
    | some text =>
      let s := psLoop sink rest (count + 1) (idx + 1)
      ⟨(⟨text, false, count + 1⟩, sink idx) :: s.calls, s.token_count, s.callIdx⟩

/-- processing.py `process_streaming_request` (lines 152-263): run the
token loop; on natural end of the stream publish the completion token
(`""`, `is_complete=True`, `sequence=token_count+1`) and return `True`; if
iterating the stream raises (modelled by `srcFails`, the raise occurring
after the listed events), publish one error token
(`"Error: " ++ errMsg`, `is_complete=True`, `sequence=999`) and return
`False`.  Both terminal publish results are ignored. -/
def process_streaming_request (sink : Nat → Bool) (src : List SrcItem)
    (srcFails : Bool) (errMsg : String) : List (PubCall × Bool) × Bool :=
  let s := psLoop sink src 0 0
  if srcFails then
    (s.calls ++ [(⟨"Error: " ++ errMsg, true, 999⟩, sink s.callIdx)], false)
  else
    (s.calls ++ [(⟨"", true, s.token_count + 1⟩, sink s.callIdx)], true)

/-- What happens for one SQS record inside the `try` of processing.py
`lambda_handler` (lines 323-342): the body is not parseable JSON
(`json.JSONDecodeError`), or it parses and `process_streaming_request`
runs on the given inputs, or some other exception is raised (for example
a missing `prompt` or `sessionId` key). -/
inductive RecordBody
  | badJson
  | parsed (sink : Nat → Bool) (src : List SrcItem) (srcFails : Bool)
      (errMsg : String)
  | raisesOther

/-- processing.py `lambda_handler` (lines 313-346): process each record of
the batch; a record whose processing returns `False` or raises a
non-JSON-decode exception contributes its `messageId` to
`batchItemFailures`; a record whose body fails to parse is dropped with a
log and contributes nothing. -/
def processing_lambda_handler (records : List (String × RecordBody)) :
    List String :=
  records.filterMap fun r =>
    match r.2 with
    | RecordBody.badJson => none
    | RecordBody.parsed sink src sf m =>
        if (process_streaming_request sink src sf m).2 then none else some r.1
    | RecordBody.raisesOther => some r.1

/-- The message sent to the streaming SQS queue by request.py (lines
118-131); `requestId` and `timestamp` are omitted. -/
structure QueueMsg where
  prompt : String
  sessionId : String
deriving DecidableEq, Repr

/-- The GraphQL resolver response of request.py (lines 140-159);
`timestamp` is omitted.  `message` and `error` are the optional keys of
the returned dictionary. -/
structure StartStreamResponse where
  sessionId : String
  status : String
  message : Option String
  error : Option String
deriving DecidableEq, Repr

/-- request.py `lambda_handler` (lines 52-159): default the prompt from
the mutation arguments, attempt to enqueue the work item and return the
immediate response.  The result records the attempted queue message,
whether the enqueue succeeded (`sqsOk`; `errMsg` stands for `str(e)` when
it raised) and the resolver response. -/
def request_lambda_handler (arguments : List (String × String))
    (session_id : String) (sqsOk : Bool) (errMsg : String) :
    QueueMsg × Bool × StartStreamResponse :=
  let prompt := (arguments.lookup "prompt").getD "Hello, how are you?"
  if sqsOk then
    (⟨prompt, session_id⟩, true,
     ⟨session_id, "streaming_started",
      some "AI streaming session initiated. Subscribe to receive real-time tokens.",
      none⟩)
  else
    (⟨prompt, session_id⟩, false,
     ⟨session_id, "error", none,
      some ("Failed to initiate streaming: " ++ errMsg)⟩)

/-- Sequence number carried by a websocket message: only token messages
carry one. -/
def wsSeq : WsMsg → Option Nat
  | WsMsg.token _ s => some s
  | _ => none

/-- A websocket message is terminal when it is the completion or the error
message. -/
def isTerminalWs : WsMsg → Bool
  | WsMsg.token _ _ => false
  | _ => true

/-- The websocket messages actually delivered to the client: those sends
whose `post_to_connection` call succeeded. -/
def deliveredWs (l : List (WsMsg × SinkRes)) : List WsMsg :=
  (l.filter fun p => match p.2 with | SinkRes.ok => true | _ => false).map Prod.fst

/-- The fragments actually delivered to AppSync subscribers: those publish
calls that returned `True`. -/
def deliveredPs (l : List (PubCall × Bool)) : List PubCall :=
  (l.filter fun p => p.2).map Prod.fst

/-- Characterization of the websocket token loop when every send it makes
succeeds: every filtered text is sent as a token numbered consecutively
from `count + 1`, and the loop ends naturally. -/
theorem wsLoop_ok (sink : Nat → SinkRes) :
    ∀ (src : List SrcItem) (count idx : Nat),
    (∀ i, i < (src.filterMap deltaText).length → sink (idx + i) = SinkRes.ok) →
    wsLoop sink src count idx =
      ⟨((src.filterMap deltaText).enumFrom (count + 1)).map
          (fun p => (WsMsg.token p.2 p.1, SinkRes.ok)),
       count + (src.filterMap deltaText).length,
       idx + (src.filterMap deltaText).length, ExitKind.natural⟩
  | [], count, idx, _ => by simp [wsLoop]
  | item :: rest, count, idx, h => by
    cases hd : deltaText item with
    | none =>
      have ih := wsLoop_ok sink rest count idx
        (by simpa [List.filterMap_cons, hd] using h)
      simp [wsLoop, hd, List.filterMap_cons, ih]
    | some t =>
      have h0 : sink idx = SinkRes.ok := by
        simpa using h 0 (by simp [List.filterMap_cons, hd])
      have ih := wsLoop_ok sink rest (count + 1) (idx + 1) (fun i hi => by
        have hlen : i + 1 < ((item :: rest).filterMap deltaText).length := by
          simp [List.filterMap_cons, hd]; omega
        have := h (i + 1) hlen
        have harith : idx + (i + 1) = idx + 1 + i := by omega
        rwa [harith] at this)
      simp only [wsLoop, hd, h0, ih, List.filterMap_cons, List.enumFrom_cons,
        List.map_cons, List.length_cons]
      simp only [LoopSt.mk.injEq]
      exact ⟨trivial, by omega, by omega, trivial⟩

/-- Characterization of the websocket token loop when the sends for a
leading block `a` of the filtered texts succeed and the send for the next
text `t` raises: the loop stops right there, with a `break` on a
`GoneException` and with a re-raise on any other client error. -/
theorem wsLoop_stop (sink : Nat → SinkRes) (res : SinkRes) (ex : ExitKind)
    (hres : res = SinkRes.gone ∧ ex = ExitKind.goneBreak ∨
            res = SinkRes.otherError ∧ ex = ExitKind.sinkRaise) :
    ∀ (src : List SrcItem) (a : List String) (t : String) (b : List String)
      (count idx : Nat),
    src.filterMap deltaText = a ++ t :: b →
    (∀ i, i < a.length → sink (idx + i) = SinkRes.ok) →
    sink (idx + a.length) = res →
    wsLoop sink src count idx =
      ⟨(a.enumFrom (count + 1)).map (fun p => (WsMsg.token p.2 p.1, SinkRes.ok))
         ++ [(WsMsg.token t (count + a.length + 1), res)],
       count + a.length + 1, idx + a.length + 1, ex⟩
  | [], a, t, b, count, idx, hsrc, _, _ => by
    exact absurd hsrc (by cases a <;> simp)
  | item :: rest, a, t, b, count, idx, hsrc, hok, hstop => by
    cases hd : deltaText item with
    | none =>
      have hsrc' : rest.filterMap deltaText = a ++ t :: b := by
        simpa [List.filterMap_cons, hd] using hsrc
      have ih := wsLoop_stop sink res ex hres rest a t b count idx hsrc' hok hstop
      simp [wsLoop, hd, ih]
    | some s0 =>
      have hsrc' : s0 :: rest.filterMap deltaText = a ++ t :: b := by
        simpa [List.filterMap_cons, hd] using hsrc
      cases a with
      | nil =>
        have hs : s0 = t ∧ rest.filterMap deltaText = b := by simpa using hsrc'
        obtain ⟨rfl, -⟩ := hs
        have hstop' : sink idx = res := by simpa using hstop
        rcases hres with ⟨hr, he⟩ | ⟨hr, he⟩ <;> subst hr he <;>
          simp [wsLoop, hd, hstop']
      | cons a0 a' =>
        have ha : s0 = a0 ∧ rest.filterMap deltaText = a' ++ t :: b := by
          simpa using hsrc'
        obtain ⟨rfl, hrest⟩ := ha
        have h0 : sink idx = SinkRes.ok := by simpa using hok 0 (by simp)
        have ih := wsLoop_stop sink res ex hres rest a' t b (count + 1) (idx + 1)
          hrest
          (fun i hi => by
            have := hok (i + 1) (by simp; omega)
            have harith : idx + (i + 1) = idx + 1 + i := by omega
            rwa [harith] at this)
          (by
            have harith : idx + (s0 :: a').length = idx + 1 + a'.length := by
              simp; omega
            rwa [harith] at hstop)
        have e1 : count + 1 + a'.length + 1 = count + (s0 :: a').length + 1 := by
          simp; omega
        have e2 : idx + 1 + a'.length + 1 = idx + (s0 :: a').length + 1 := by
          simp; omega
        rw [e1, e2] at ih
        simp [wsLoop, hd, h0, ih, List.enumFrom_cons]

@[simp] theorem wsSeq_token (t : String) (s : Nat) :
    wsSeq (WsMsg.token t s) = some s := rfl

@[simp] theorem wsSeq_complete (n : Nat) :
    wsSeq (WsMsg.complete n) = none := rfl

@[simp] theorem wsSeq_error (m : String) :
    wsSeq (WsMsg.error m) = none := rfl

@[simp] theorem isTerminalWs_token (t : String) (s : Nat) :
    isTerminalWs (WsMsg.token t s) = false := rfl

@[simp] theorem isTerminalWs_complete (n : Nat) :
    isTerminalWs (WsMsg.complete n) = true := rfl

@[simp] theorem isTerminalWs_error (m : String) :
    isTerminalWs (WsMsg.error m) = true := rfl

/-- Whatever the sink does, the messages sent by the websocket token loop
are exactly token messages with consecutive sequence numbers starting at
`count + 1`. -/
theorem wsLoop_seq (sink : Nat → SinkRes) :
    ∀ (src : List SrcItem) (count idx : Nat),
    ((wsLoop sink src count idx).msgs).filterMap (fun p => wsSeq p.1) =
      List.range' (count + 1) ((wsLoop sink src count idx).msgs).length
  | [], count, idx => by simp [wsLoop]
  | item :: rest, count, idx => by
    cases hd : deltaText item with
    | none => simp [wsLoop, hd, wsLoop_seq sink rest count idx]
    | some t =>
      cases hr : sink idx with
      | ok =>
        have ih := wsLoop_seq sink rest (count + 1) (idx + 1)
        simp [wsLoop, hd, hr, ih, List.range'_succ]
      | gone => simp [wsLoop, hd, hr]
      | otherError => simp [wsLoop, hd, hr]

/-- No message sent by the websocket token loop is terminal. -/
theorem wsLoop_tok (sink : Nat → SinkRes) :
    ∀ (src : List SrcItem) (count idx : Nat),
    ∀ p ∈ (wsLoop sink src count idx).msgs, isTerminalWs p.1 = false
  | [], count, idx => by simp [wsLoop]
  | item :: rest, count, idx => by
    cases hd : deltaText item with
    | none =>
      simpa [wsLoop, hd] using wsLoop_tok sink rest count idx
    | some t =>
      intro p hp
      cases hr : sink idx with
      | ok =>
        rw [wsLoop] at hp
        simp only [hd, hr, List.mem_cons] at hp
        rcases hp with rfl | hp
        · rfl
        · exact wsLoop_tok sink rest (count + 1) (idx + 1) p hp
      | gone =>
        rw [wsLoop] at hp
        simp only [hd, hr, List.mem_cons, List.not_mem_nil, or_false] at hp
        simp [hp]
      | otherError =>
        rw [wsLoop] at hp
        simp only [hd, hr, List.mem_cons, List.not_mem_nil, or_false] at hp
        simp [hp]

/-- Whatever the publish results are, the fragments published by the
broadcast token loop are exactly the filtered texts, non-terminal, with
consecutive sequence numbers starting at `count + 1` (processing.py
ignores the result of each publish call). -/
theorem psLoop_calls (sink : Nat → Bool) :
    ∀ (src : List SrcItem) (count idx : Nat),
    ((psLoop sink src count idx).calls).map Prod.fst =
      ((src.filterMap deltaText).enumFrom (count + 1)).map
        (fun p => (⟨p.2, false, p.1⟩ : PubCall))
  | [], _, _ => by simp [psLoop]
  | item :: rest, count, idx => by
    cases hd : deltaText item with
    | none => simp [psLoop, hd, psLoop_calls sink rest count idx]
    | some t =>
      simp [psLoop, hd, psLoop_calls sink rest (count + 1) (idx + 1),
        List.enumFrom_cons]

/-- The broadcast token loop advances `token_count` and the call index by
the number of filtered texts. -/
theorem psLoop_count (sink : Nat → Bool) :
    ∀ (src : List SrcItem) (count idx : Nat),
    (psLoop sink src count idx).token_count =
      count + (src.filterMap deltaText).length ∧
    (psLoop sink src count idx).callIdx =
      idx + (src.filterMap deltaText).length
  | [], _, _ => by simp [psLoop]
  | item :: rest, count, idx => by
    cases hd : deltaText item with
    | none => simpa [psLoop, hd] using psLoop_count sink rest count idx
    | some t =>
      have ih := psLoop_count sink rest (count + 1) (idx + 1)
      simp [psLoop, hd, ih.1, ih.2]
      omega

/-- Characterization of the broadcast token loop when every publish call
succeeds. -/
theorem psLoop_allOk (sink : Nat → Bool) :
    ∀ (src : List SrcItem) (count idx : Nat),
    (∀ i, i < (src.filterMap deltaText).length → sink (idx + i) = true) →
    (psLoop sink src count idx).calls =
      ((src.filterMap deltaText).enumFrom (count + 1)).map
        (fun p => ((⟨p.2, false, p.1⟩ : PubCall), true))
  | [], _, _, _ => by simp [psLoop]
  | item :: rest, count, idx, h => by
    cases hd : deltaText item with
    | none =>
      have ih := psLoop_allOk sink rest count idx
        (by simpa [List.filterMap_cons, hd] using h)
      simp [psLoop, hd, ih]
    | some t =>
      have h0 : sink idx = true := by
        simpa using h 0 (by simp [List.filterMap_cons, hd])
      have ih := psLoop_allOk sink rest (count + 1) (idx + 1) (fun i hi => by
        have hlen : i + 1 < ((item :: rest).filterMap deltaText).length := by
          simp [List.filterMap_cons, hd]; omega
        have := h (i + 1) hlen
        have harith : idx + (i + 1) = idx + 1 + i := by omega
        rwa [harith] at this)
      simp [psLoop, hd, h0, ih, List.enumFrom_cons]

/-- No fragment published by the broadcast token loop is terminal. -/
theorem psLoop_nonterm (sink : Nat → Bool) :
    ∀ (src : List SrcItem) (count idx : Nat),
    ∀ p ∈ (psLoop sink src count idx).calls, p.1.is_complete = false
  | [], _, _ => by simp [psLoop]
  | item :: rest, count, idx => by
    cases hd : deltaText item with
    | none =>
      simpa [psLoop, hd] using psLoop_nonterm sink rest count idx
    | some t =>
      intro p hp
      rw [psLoop] at hp
      simp only [hd, List.mem_cons] at hp
      rcases hp with rfl | hp
      · rfl
      · exact psLoop_nonterm sink rest (count + 1) (idx + 1) p hp

/-- The sequence numbers published by the broadcast token loop are
`count + 1, ..., count + length`. -/
theorem psLoop_seq (sink : Nat → Bool) (src : List SrcItem) (count idx : Nat) :
    ((psLoop sink src count idx).calls).map (fun p => p.1.sequence) =
      List.range' (count + 1) ((src.filterMap deltaText).length) := by
  have h1 : ((psLoop sink src count idx).calls).map (fun p => p.1.sequence) =
      (((psLoop sink src count idx).calls).map Prod.fst).map
        (fun c => c.sequence) := by
    simp [List.map_map]
  rw [h1, psLoop_calls, List.map_map]
  have h2 : ((fun c => PubCall.sequence c) ∘ fun p => (⟨p.2, false, p.1⟩ : PubCall)) =
      fun p : Nat × String => p.1 := rfl
  rw [h2]
  have h3 : (fun p : Nat × String => p.1) = Prod.fst := rfl
  rw [h3, List.enumFrom_map_fst]

/-- Inserting an event that fails the content filter anywhere in the
stream leaves the websocket token loop unchanged. -/
theorem wsLoop_skip (sink : Nat → SinkRes) (e : SrcItem)
    (he : deltaText e = none) :
    ∀ (a b : List SrcItem) (count idx : Nat),
    wsLoop sink (a ++ e :: b) count idx = wsLoop sink (a ++ b) count idx
  | [], b, count, idx => by simp [wsLoop, he]
  | item :: a', b, count, idx => by
    cases hd : deltaText item with
    | none =>
      simp [List.cons_append, wsLoop, hd, wsLoop_skip sink e he a' b count idx]
    | some t =>
      cases hr : sink idx with
      | ok =>
        simp [List.cons_append, wsLoop, hd, hr,
          wsLoop_skip sink e he a' b (count + 1) (idx + 1)]
      | gone => simp [List.cons_append, wsLoop, hd, hr]
      | otherError => simp [List.cons_append, wsLoop, hd, hr]

/-- Inserting an event that fails the content filter anywhere in the
stream leaves the broadcast token loop unchanged. -/
theorem psLoop_skip (sink : Nat → Bool) (e : SrcItem)
    (he : deltaText e = none) :
    ∀ (a b : List SrcItem) (count idx : Nat),
    psLoop sink (a ++ e :: b) count idx = psLoop sink (a ++ b) count idx
  | [], b, count, idx => by simp [psLoop, he]
  | item :: a', b, count, idx => by
    cases hd : deltaText item with
    | none =>
      simp [List.cons_append, psLoop, hd, psLoop_skip sink e he a' b count idx]
    | some t =>
      simp [List.cons_append, psLoop, hd,
        psLoop_skip sink e he a' b (count + 1) (idx + 1)]

/-- Mapping the chunk constructor over a list of non-empty texts and
filtering recovers the texts. -/
theorem filterMap_deltaText_map (texts : List String)
    (h : ∀ t ∈ texts, t ≠ "") :
    (texts.map (fun t => SrcItem.chunkOf "content_block_delta" t)).filterMap
      deltaText = texts := by
  induction texts with
  | nil => simp
  | cons t ts ih =>
    have ht : t ≠ "" := h t (by simp)
    have hts := ih (fun u hu => h u (by simp [hu]))
    simp [List.filterMap_cons, deltaText, ht, hts]

/-- C1: for every finite fragment source of length N whose chunks are all
non-empty, when neither the source pull nor any sink send fails, both
relay variants send exactly N non-terminal fragments with sequence
numbers 1..N in generation order, then exactly one terminal fragment —
the broadcast variant publishes `("", is_complete=true, sequence=N+1)` and
returns success, the websocket variant posts the completion message with
`total_tokens = N` — and the run is reported as completed with total N. -/
theorem relay_completes_finite_source (texts : List String)
    (psink : Nat → Bool) (wsink : Nat → SinkRes) (m em : String)
    (hne : ∀ t ∈ texts, t ≠ "")
    (hps : ∀ i, psink i = true)
    (hws : ∀ i, wsink i = SinkRes.ok) :
    process_streaming_request psink
        (texts.map (fun t => SrcItem.chunkOf "content_block_delta" t)) false m =
      ((texts.enumFrom 1).map (fun p => ((⟨p.2, false, p.1⟩ : PubCall), true))
        ++ [((⟨"", true, texts.length + 1⟩ : PubCall), true)], true)
    ∧ wsRelay wsink
        (texts.map (fun t => SrcItem.chunkOf "content_block_delta" t)) false em =
      ((texts.enumFrom 1).map (fun p => (WsMsg.token p.2 p.1, SinkRes.ok))
        ++ [(WsMsg.complete texts.length, SinkRes.ok)],
       Outcome.completed texts.length) := by
  have hf := filterMap_deltaText_map texts hne
  constructor
  · have hall := psLoop_allOk psink
      (texts.map (fun t => SrcItem.chunkOf "content_block_delta" t)) 0 0
      (fun i _ => by simpa using hps (0 + i))
    have hcnt := (psLoop_count psink
      (texts.map (fun t => SrcItem.chunkOf "content_block_delta" t)) 0 0).1
    rw [hf] at hall hcnt
    simp [process_streaming_request, hall, hcnt, hps]
  · have hok := wsLoop_ok wsink
      (texts.map (fun t => SrcItem.chunkOf "content_block_delta" t)) 0 0
      (fun i _ => by simpa using hws (0 + i))
    rw [hf] at hok
    simp [wsRelay, hok, wsFinish, hws]

/-- Witness for C1 at the spec's own example: source `["Hel", "lo",
" world"]` with an always-successful sink. -/
theorem relay_completes_finite_source_witness :
    process_streaming_request (fun _ => true)
        (["Hel", "lo", " world"].map
          (fun t => SrcItem.chunkOf "content_block_delta" t)) false "m" =
      (((["Hel", "lo", " world"] : List String).enumFrom 1).map
          (fun p => ((⟨p.2, false, p.1⟩ : PubCall), true))
        ++ [((⟨"", true, (["Hel", "lo", " world"] : List String).length + 1⟩ :
              PubCall), true)], true)
    ∧ wsRelay (fun _ => SinkRes.ok)
        (["Hel", "lo", " world"].map
          (fun t => SrcItem.chunkOf "content_block_delta" t)) false "em" =
      (((["Hel", "lo", " world"] : List String).enumFrom 1).map
          (fun p => (WsMsg.token p.2 p.1, SinkRes.ok))
        ++ [(WsMsg.complete (["Hel", "lo", " world"] : List String).length,
             SinkRes.ok)],
       Outcome.completed (["Hel", "lo", " world"] : List String).length) :=
  relay_completes_finite_source ["Hel", "lo", " world"] (fun _ => true)
    (fun _ => SinkRes.ok) "m" "em" (by decide) (fun _ => rfl) (fun _ => rfl)

/-- C6: a zero-length non-terminal chunk is unobservable — deleting it
from the stream changes nothing about either relay run: no sequence
number is consumed and no sink call is made for it. -/
theorem empty_chunk_unobservable (a b : List SrcItem) (wsink : Nat → SinkRes)
    (psink : Nat → Bool) (sf : Bool) (m em : String) :
    wsRelay wsink (a ++ SrcItem.chunkOf "content_block_delta" "" :: b) sf em =
      wsRelay wsink (a ++ b) sf em
    ∧ process_streaming_request psink
        (a ++ SrcItem.chunkOf "content_block_delta" "" :: b) sf m =
      process_streaming_request psink (a ++ b) sf m := by
  have he : deltaText (SrcItem.chunkOf "content_block_delta" "") = none := by
    simp [deltaText]
  constructor
  · simp [wsRelay, wsLoop_skip wsink _ he a b 0 0]
  · simp [process_streaming_request, psLoop_skip psink _ he a b 0 0]

/-- Counterexample to C2 as stated: with a source yielding one fragment
and a sink that is gone from the start, the websocket relay does NOT stop
sending after the gone result on fragment 1 — it still attempts the
completion send (stream.py breaks out of the token loop at line 167 and
then unconditionally runs the completion block at lines 172-190). -/
theorem gone_does_not_stop_completion_send_cex :
    wsRelay (fun _ => SinkRes.gone)
        [SrcItem.chunkOf "content_block_delta" "A"] false "m" =
      ([(WsMsg.token "A" 1, SinkRes.gone), (WsMsg.complete 1, SinkRes.gone)],
       Outcome.sinkGone 1)
    ∧ ¬ (wsRelay (fun _ => SinkRes.gone)
        [SrcItem.chunkOf "content_block_delta" "A"] false "m").1 =
        [(WsMsg.token "A" 1, SinkRes.gone)] :=
  ⟨rfl, by decide⟩

/-- C2 as amended: if the sink reports gone on the send of fragment k
(and, as is the case for a vanished connection, also on the completion
send that follows), the websocket relay attempts token sends exactly for
fragments 1..k (so fragments 1..k-1 are delivered), pulls no further
source fragments and sends no further token or error fragment, but it
does attempt the one completion send, whose gone result is swallowed; the
run ends on the gone path with `token_count = k`. -/
theorem ws_sink_gone_behavior (wsink : Nat → SinkRes) (src : List SrcItem)
    (a : List String) (t : String) (b : List String) (sf : Bool) (m : String)
    (hsrc : src.filterMap deltaText = a ++ t :: b)
    (hok : ∀ i, i < a.length → wsink i = SinkRes.ok)
    (hg : wsink a.length = SinkRes.gone)
    (hc : wsink (a.length + 1) = SinkRes.gone) :
    wsRelay wsink src sf m =
      ((a.enumFrom 1).map (fun p => (WsMsg.token p.2 p.1, SinkRes.ok))
        ++ [(WsMsg.token t (a.length + 1), SinkRes.gone),
            (WsMsg.complete (a.length + 1), SinkRes.gone)],
       Outcome.sinkGone (a.length + 1)) := by
  have hstop := wsLoop_stop wsink SinkRes.gone ExitKind.goneBreak
    (Or.inl ⟨rfl, rfl⟩) src a t b 0 0 hsrc
    (fun i hi => by simpa using hok i hi)
    (by simpa using hg)
  simp [wsRelay, hstop, wsFinish, hc]

/-- Witness for the amended C2: two-fragment source, connection vanishes
on the second send. -/
theorem ws_sink_gone_behavior_witness :
    wsRelay (fun i => if i = 0 then SinkRes.ok else SinkRes.gone)
        [SrcItem.chunkOf "content_block_delta" "A",
         SrcItem.chunkOf "content_block_delta" "B"] false "m" =
      ([(WsMsg.token "A" 1, SinkRes.ok), (WsMsg.token "B" 2, SinkRes.gone),
        (WsMsg.complete 2, SinkRes.gone)], Outcome.sinkGone 2) :=
  ws_sink_gone_behavior (fun i => if i = 0 then SinkRes.ok else SinkRes.gone)
    [SrcItem.chunkOf "content_block_delta" "A",
     SrcItem.chunkOf "content_block_delta" "B"] ["A"] "B" [] false "m"
    (by decide)
    (by intro i hi; have h0 : i = 0 := by simpa using hi
        subst h0; rfl)
    rfl rfl

/-- Counterexample to C3 as stated: in the broadcast variant a non-gone
send failure on fragment 1 does not abort the run at all —
`process_streaming_request` stores the boolean result of
`publish_token_to_appsync` in `success` without ever testing it
(processing.py line 219), keeps publishing fragment 2 and the completion
fragment, and still returns success. -/
theorem publish_failure_ignored_cex :
    process_streaming_request (fun i => decide (i ≠ 0))
        [SrcItem.chunkOf "content_block_delta" "A",
         SrcItem.chunkOf "content_block_delta" "B"] false "m" =
      ([((⟨"A", false, 1⟩ : PubCall), false),
        ((⟨"B", false, 2⟩ : PubCall), true),
        ((⟨"", true, 3⟩ : PubCall), true)], true)
    ∧ ¬ (process_streaming_request (fun i => decide (i ≠ 0))
        [SrcItem.chunkOf "content_block_delta" "A",
         SrcItem.chunkOf "content_block_delta" "B"] false "m").2 = false :=
  ⟨rfl, by decide⟩

/-- C3 as amended: the two variants react differently to a non-gone send
error on fragment k.  The websocket relay aborts the pull loop (k-1
fragments delivered) but then attempts exactly one further send — the
best-effort error fragment of the outer handler, whose own failure is
ignored — and ends on the failure path.  The broadcast relay ignores the
failed publish entirely: it publishes every remaining fragment and the
completion fragment and still returns success. -/
theorem sink_error_behavior (wsink : Nat → SinkRes) (src : List SrcItem)
    (a : List String) (t : String) (b : List String) (sf : Bool) (m : String)
    (psink : Nat → Bool) (src2 : List SrcItem) (m2 : String)
    (hsrc : src.filterMap deltaText = a ++ t :: b)
    (hok : ∀ i, i < a.length → wsink i = SinkRes.ok)
    (herr : wsink a.length = SinkRes.otherError) :
    wsRelay wsink src sf m =
      ((a.enumFrom 1).map (fun p => (WsMsg.token p.2 p.1, SinkRes.ok))
        ++ [(WsMsg.token t (a.length + 1), SinkRes.otherError),
            (WsMsg.error m, wsink (a.length + 1))],
       Outcome.failed (a.length + 1))
    ∧ (process_streaming_request psink src2 false m2).1.map Prod.fst =
        ((src2.filterMap deltaText).enumFrom 1).map
          (fun p => (⟨p.2, false, p.1⟩ : PubCall))
        ++ [(⟨"", true, (src2.filterMap deltaText).length + 1⟩ : PubCall)]
    ∧ (process_streaming_request psink src2 false m2).2 = true := by
  refine ⟨?_, ?_, ?_⟩
  · have hstop := wsLoop_stop wsink SinkRes.otherError ExitKind.sinkRaise
      (Or.inr ⟨rfl, rfl⟩) src a t b 0 0 hsrc
      (fun i hi => by simpa using hok i hi)
      (by simpa using herr)
    simp [wsRelay, hstop, wsFinish]
  · have hcalls := psLoop_calls psink src2 0 0
    have hcnt := (psLoop_count psink src2 0 0).1
    simp [process_streaming_request, hcalls, hcnt]
  · simp [process_streaming_request]

/-- Witness for the amended C3: websocket run failing on the second send,
broadcast run with an always-failing publisher. -/
theorem sink_error_behavior_witness :
    wsRelay (fun i => if i = 0 then SinkRes.ok else SinkRes.otherError)
        [SrcItem.chunkOf "content_block_delta" "A",
         SrcItem.chunkOf "content_block_delta" "B"] false "m" =
      ([(WsMsg.token "A" 1, SinkRes.ok),
        (WsMsg.token "B" 2, SinkRes.otherError),
        (WsMsg.error "m", SinkRes.otherError)], Outcome.failed 2)
    ∧ (process_streaming_request (fun _ => false)
        [SrcItem.chunkOf "content_block_delta" "C"] false "x").1.map Prod.fst =
        ((([SrcItem.chunkOf "content_block_delta" "C"] :
            List SrcItem).filterMap deltaText).enumFrom 1).map
          (fun p => (⟨p.2, false, p.1⟩ : PubCall))
        ++ [(⟨"", true, (([SrcItem.chunkOf "content_block_delta" "C"] :
              List SrcItem).filterMap deltaText).length + 1⟩ : PubCall)]
    ∧ (process_streaming_request (fun _ => false)
        [SrcItem.chunkOf "content_block_delta" "C"] false "x").2 = true :=
  sink_error_behavior
    (fun i => if i = 0 then SinkRes.ok else SinkRes.otherError)
    [SrcItem.chunkOf "content_block_delta" "A",
     SrcItem.chunkOf "content_block_delta" "B"] ["A"] "B" [] false "m"
    (fun _ => false) [SrcItem.chunkOf "content_block_delta" "C"] "x"
    (by decide)
    (by intro i hi; have h0 : i = 0 := by simpa using hi
        subst h0; rfl)
    rfl

/-- Counterexample to C4 as stated: the error fragment's sequence number
is the fixed constant 999 (processing.py line 258), which is NOT
distinguishable from every normally assigned sequence number — after a
source of 999 fragments fails, the error fragment reuses sequence 999,
already assigned to the 999th normal fragment. -/
theorem error_sequence_collision_cex :
    ((process_streaming_request (fun _ => true)
        (List.replicate 999 (SrcItem.chunkOf "content_block_delta" "x"))
        true "boom").1.map (fun p => p.1.sequence)) =
      List.range' 1 999 ++ [999]
    ∧ (999 : Nat) ∈ List.range' 1 999 := by
  have hsrc : List.replicate 999 (SrcItem.chunkOf "content_block_delta" "x")
      = (List.replicate 999 "x").map
          (fun t => SrcItem.chunkOf "content_block_delta" t) := by
    rw [List.map_replicate]
  have hf : (List.replicate 999
        (SrcItem.chunkOf "content_block_delta" "x")).filterMap deltaText =
      List.replicate 999 "x" := by
    rw [hsrc]
    exact filterMap_deltaText_map _
      (fun t ht => by rw [List.mem_replicate] at ht; rw [ht.2]; decide)
  constructor
  · have hseq := psLoop_seq (fun _ => true)
      (List.replicate 999 (SrcItem.chunkOf "content_block_delta" "x")) 0 0
    rw [hf, List.length_replicate] at hseq
    have h01 : (0 : Nat) + 1 = 1 := rfl
    rw [h01] at hseq
    have hunfold : (process_streaming_request (fun _ => true)
        (List.replicate 999 (SrcItem.chunkOf "content_block_delta" "x"))
        true "boom").1 =
        (psLoop (fun _ => true)
          (List.replicate 999 (SrcItem.chunkOf "content_block_delta" "x"))
          0 0).calls ++ [(⟨"Error: " ++ "boom", true, 999⟩, true)] := rfl
    rw [hunfold, List.map_append, hseq]
    rfl
  · rw [List.mem_range'_1]; omega

/-- C4 as amended: when pulling from the source raises after k fragments,
the broadcast relay attempts exactly one additional publish — an error
fragment with `is_complete=true`, text `"Error: " ++ description` and the
fixed sequence number 999 — ignores that publish's result, and returns
failure with the k normal fragments already published; the error sequence
number is distinguishable from every normally assigned one only when
fewer than 999 fragments were sent. -/
theorem backend_failure_error_fragment (psink : Nat → Bool)
    (src : List SrcItem) (m : String) :
    (process_streaming_request psink src true m).1.map Prod.fst =
      ((src.filterMap deltaText).enumFrom 1).map
        (fun p => (⟨p.2, false, p.1⟩ : PubCall))
      ++ [(⟨"Error: " ++ m, true, 999⟩ : PubCall)]
    ∧ (process_streaming_request psink src true m).2 = false
    ∧ ((src.filterMap deltaText).length ≤ 998 →
        (999 : Nat) ∉
          ((process_streaming_request psink src true m).1.dropLast.map
            (fun p => p.1.sequence))) := by
  refine ⟨?_, ?_, ?_⟩
  · have hcalls := psLoop_calls psink src 0 0
    simp [process_streaming_request, hcalls]
  · simp [process_streaming_request]
  · intro hlen hmem
    have hseq := psLoop_seq psink src 0 0
    have hdrop : (process_streaming_request psink src true m).1.dropLast =
        (psLoop psink src 0 0).calls := by
      simp [process_streaming_request]
    rw [hdrop, hseq] at hmem
    rw [List.mem_range'_1] at hmem
    omega

/-- Witness for the amended C4: one-fragment source that then fails. -/
theorem backend_failure_error_fragment_witness :
    (process_streaming_request (fun _ => true)
        [SrcItem.chunkOf "content_block_delta" "A"] true "boom").1.map
      Prod.fst =
      ((([SrcItem.chunkOf "content_block_delta" "A"] :
          List SrcItem).filterMap deltaText).enumFrom 1).map
        (fun p => (⟨p.2, false, p.1⟩ : PubCall))
      ++ [(⟨"Error: " ++ "boom", true, 999⟩ : PubCall)]
    ∧ (999 : Nat) ∉
        ((process_streaming_request (fun _ => true)
          [SrcItem.chunkOf "content_block_delta" "A"] true "boom").1.dropLast.map
          (fun p => p.1.sequence)) :=
  ⟨(backend_failure_error_fragment (fun _ => true)
      [SrcItem.chunkOf "content_block_delta" "A"] "boom").1,
   (backend_failure_error_fragment (fun _ => true)
      [SrcItem.chunkOf "content_block_delta" "A"] "boom").2.2 (by decide)⟩

/-- Counterexample to C7 as stated: in the websocket variant a non-gone
failure of the completion send DOES change the outcome — stream.py
re-raises it (line 190), the outer handler posts an error message, and
the run ends on the failure path instead of the completed path. -/
theorem completion_send_error_diverts_cex :
    wsRelay (fun i => if i = 1 then SinkRes.otherError else SinkRes.ok)
        [SrcItem.chunkOf "content_block_delta" "A"] false "m" =
      ([(WsMsg.token "A" 1, SinkRes.ok),
        (WsMsg.complete 1, SinkRes.otherError),
        (WsMsg.error "m", SinkRes.ok)], Outcome.failed 1)
    ∧ ¬ (wsRelay (fun i => if i = 1 then SinkRes.otherError else SinkRes.ok)
        [SrcItem.chunkOf "content_block_delta" "A"] false "m").2 =
        Outcome.completed 1 :=
  ⟨rfl, by decide⟩

/-- C7 as amended: the broadcast variant never downgrades a completed run
— `process_streaming_request` returns success on natural end-of-stream no
matter what any publish call (including the completion publish) returned;
the websocket variant stays on the completed path when the completion
send returns gone, but a non-gone completion-send error diverts it to the
failure path. -/
theorem completion_failure_tolerance (psink : Nat → Bool) (src : List SrcItem)
    (m em : String) (wsink : Nat → SinkRes)
    (hok : ∀ i, i < (src.filterMap deltaText).length → wsink i = SinkRes.ok)
    (hg : wsink (src.filterMap deltaText).length = SinkRes.gone) :
    (process_streaming_request psink src false m).2 = true
    ∧ wsRelay wsink src false em =
      (((src.filterMap deltaText).enumFrom 1).map
          (fun p => (WsMsg.token p.2 p.1, SinkRes.ok))
        ++ [(WsMsg.complete (src.filterMap deltaText).length, SinkRes.gone)],
       Outcome.completed (src.filterMap deltaText).length) := by
  constructor
  · simp [process_streaming_request]
  · have hokall := wsLoop_ok wsink src 0 0 (fun i hi => by simpa using hok i hi)
    simp [wsRelay, hokall, wsFinish, hg]

/-- Witness for the amended C7: one-token run whose completion send finds
the connection gone, next to a broadcast run whose publishes all fail. -/
theorem completion_failure_tolerance_witness :
    (process_streaming_request (fun _ => false)
        [SrcItem.chunkOf "content_block_delta" "A"] false "m").2 = true
    ∧ wsRelay (fun i => if i = 0 then SinkRes.ok else SinkRes.gone)
        [SrcItem.chunkOf "content_block_delta" "A"] false "em" =
      ([(WsMsg.token "A" 1, SinkRes.ok), (WsMsg.complete 1, SinkRes.gone)],
       Outcome.completed 1) :=
  completion_failure_tolerance (fun _ => false)
    [SrcItem.chunkOf "content_block_delta" "A"] "m" "em"
    (fun i => if i = 0 then SinkRes.ok else SinkRes.gone)
    (by intro i hi
        have hlen : (List.filterMap deltaText
            [SrcItem.chunkOf "content_block_delta" "A"]).length = 1 := rfl
        rw [hlen] at hi
        have h0 : i = 0 := by omega
        subst h0; rfl)
    rfl

/-- Counterexample to C9 as stated: on a successful enqueue the status
value returned by request.py is the string "streaming_started" (line
142), not "started". -/
theorem start_status_value_cex :
    (request_lambda_handler [("prompt", "hi")] "sid" true "").2.2.status =
      "streaming_started"
    ∧ ¬ ("streaming_started" : String) = "started" :=
  ⟨rfl, by decide⟩

/-- C9 as amended: the session initiator always returns an object whose
`sessionId` is the generated session id and whose `status` is either
"streaming_started" or "error"; on successful enqueue the status is
"streaming_started" with a `message` field, and on a failed enqueue the
status is "error" with the description under an `error` key and no
`message` field. -/
theorem start_response_shape (args : List (String × String)) (sid em : String)
    (ok : Bool) :
    (request_lambda_handler args sid ok em).2.2.sessionId = sid
    ∧ ((request_lambda_handler args sid ok em).2.2.status = "streaming_started"
        ∨ (request_lambda_handler args sid ok em).2.2.status = "error")
    ∧ (ok = true →
        (request_lambda_handler args sid ok em).2.2.status = "streaming_started"
        ∧ (request_lambda_handler args sid ok em).2.2.message =
            some "AI streaming session initiated. Subscribe to receive real-time tokens."
        ∧ (request_lambda_handler args sid ok em).2.2.error = none)
    ∧ (ok = false →
        (request_lambda_handler args sid ok em).2.2.status = "error"
        ∧ (request_lambda_handler args sid ok em).2.2.message = none
        ∧ (request_lambda_handler args sid ok em).2.2.error =
            some ("Failed to initiate streaming: " ++ em)) := by
  cases ok <;> simp [request_lambda_handler]

/-- Witness for the amended C9 on the failed-enqueue path. -/
theorem start_response_shape_witness :
    (request_lambda_handler [] "s" false "x").2.2.status = "error"
    ∧ (request_lambda_handler [] "s" false "x").2.2.message = none
    ∧ (request_lambda_handler [] "s" false "x").2.2.error =
        some ("Failed to initiate streaming: " ++ "x") :=
  (start_response_shape [] "s" "x" false).2.2.2 rfl

/-- C10: when the request body omits the prompt, neither handler rejects
the request — the session initiator enqueues the work item with the
default prompt "Hello, how are you?" (request.py line 98), and the
websocket handler runs the full relay with that default prompt
(stream.py line 91). -/
theorem default_prompt_used (args kvs : List (String × String))
    (sid em m : String) (ok sf : Bool) (wsink : Nat → SinkRes)
    (src : List SrcItem)
    (h1 : args.lookup "prompt" = none)
    (h2 : kvs.lookup "prompt" = none) :
    (request_lambda_handler args sid ok em).1.prompt = "Hello, how are you?"
    ∧ ws_lambda_handler (some kvs) wsink src sf m =
        WsHandlerResult.ran "Hello, how are you?" (wsRelay wsink src sf m).1
          (wsRelay wsink src sf m).2 := by
  constructor
  · cases ok <;> simp [request_lambda_handler, h1]
  · simp [ws_lambda_handler, h2]

/-- Witness for C10: bodies carrying no prompt key. -/
theorem default_prompt_used_witness :
    (request_lambda_handler [] "s" true "").1.prompt = "Hello, how are you?"
    ∧ ws_lambda_handler (some [("action", "stream")]) (fun _ => SinkRes.ok)
        [] false "m" =
      WsHandlerResult.ran "Hello, how are you?"
        (wsRelay (fun _ => SinkRes.ok) [] false "m").1
        (wsRelay (fun _ => SinkRes.ok) [] false "m").2 :=
  default_prompt_used [] [("action", "stream")] "s" "" "m" true false
    (fun _ => SinkRes.ok) [] rfl rfl

/-- The list of failed message ids reported by the batch handler is a
sublist of the batch's message ids. -/
theorem processing_handler_sublist (records : List (String × RecordBody)) :
    List.Sublist (processing_lambda_handler records) (records.map Prod.fst) := by
  induction records with
  | nil => simp [processing_lambda_handler]
  | cons r rest ih =>
    rcases r with ⟨mid, body⟩
    cases body with
    | badJson =>
      have h : processing_lambda_handler ((mid, RecordBody.badJson) :: rest) =
          processing_lambda_handler rest := by
        simp [processing_lambda_handler]
      rw [h, List.map_cons]
      exact List.Sublist.cons _ ih
    | raisesOther =>
      have h : processing_lambda_handler
            ((mid, RecordBody.raisesOther) :: rest) =
          mid :: processing_lambda_handler rest := by
        simp [processing_lambda_handler]
      rw [h, List.map_cons]
      exact List.Sublist.cons₂ _ ih
    | parsed sink src sf m =>
      cases hp : (process_streaming_request sink src sf m).2 with
      | true =>
        have h : processing_lambda_handler
              ((mid, RecordBody.parsed sink src sf m) :: rest) =
            processing_lambda_handler rest := by
          simp [processing_lambda_handler, hp]
        rw [h, List.map_cons]
        exact List.Sublist.cons _ ih
      | false =>
        have h : processing_lambda_handler
              ((mid, RecordBody.parsed sink src sf m) :: rest) =
            mid :: processing_lambda_handler rest := by
          simp [processing_lambda_handler, hp]
        rw [h, List.map_cons]
        exact List.Sublist.cons₂ _ ih

/-- C8: assuming the message ids of a batch are distinct, a record whose
body is not parseable JSON is never reported as failed, while a record
whose processing returns failure or raises another exception is reported
in the batch item failures exactly once. -/
theorem batch_failure_classification (records : List (String × RecordBody))
    (hnd : (records.map Prod.fst).Nodup) :
    (∀ mid, (mid, RecordBody.badJson) ∈ records →
      mid ∉ processing_lambda_handler records)
    ∧ (∀ mid, (mid, RecordBody.raisesOther) ∈ records →
        (processing_lambda_handler records).count mid = 1)
    ∧ (∀ mid sink src sf m,
        (mid, RecordBody.parsed sink src sf m) ∈ records →
        (process_streaming_request sink src sf m).2 = false →
        (processing_lambda_handler records).count mid = 1) := by
  have hndout : (processing_lambda_handler records).Nodup :=
    hnd.sublist (processing_handler_sublist records)
  refine ⟨?_, ?_, ?_⟩
  · intro mid hmem hcontra
    rw [processing_lambda_handler, List.mem_filterMap] at hcontra
    obtain ⟨r, hr, hf⟩ := hcontra
    have hprop : r.1 = mid ∧ r.2 ≠ RecordBody.badJson := by
      cases hb : r.2 with
      | badJson => rw [hb] at hf; simp at hf
      | raisesOther =>
        rw [hb] at hf
        simp at hf
        exact ⟨hf, by simp [hb]⟩
      | parsed sink src sf m =>
        rw [hb] at hf
        cases hp : (process_streaming_request sink src sf m).2 with
        | true => simp [hp] at hf
        | false =>
          simp [hp] at hf
          exact ⟨hf, by simp [hb]⟩
    have hreq : r = (mid, RecordBody.badJson) :=
      List.inj_on_of_nodup_map hnd hr hmem hprop.1
    exact hprop.2 (by rw [hreq])
  · intro mid hmem
    refine List.count_eq_one_of_mem hndout ?_
    rw [processing_lambda_handler, List.mem_filterMap]
    exact ⟨(mid, RecordBody.raisesOther), hmem, rfl⟩
  · intro mid sink src sf m hmem hfail
    refine List.count_eq_one_of_mem hndout ?_
    rw [processing_lambda_handler, List.mem_filterMap]
    refine ⟨(mid, RecordBody.parsed sink src sf m), hmem, ?_⟩
    simp [hfail]

/-- Witness for C8 on a four-record batch: a malformed record is dropped,
a successful record is dropped, a raising record and a failing record are
each reported once. -/
theorem batch_failure_classification_witness :
    "a" ∉ processing_lambda_handler
        [("a", RecordBody.badJson),
         ("b", RecordBody.parsed (fun _ => true) [] false ""),
         ("c", RecordBody.raisesOther),
         ("d", RecordBody.parsed (fun _ => true) [] true "x")]
    ∧ (processing_lambda_handler
        [("a", RecordBody.badJson),
         ("b", RecordBody.parsed (fun _ => true) [] false ""),
         ("c", RecordBody.raisesOther),
         ("d", RecordBody.parsed (fun _ => true) [] true "x")]).count "c" = 1
    ∧ (processing_lambda_handler
        [("a", RecordBody.badJson),
         ("b", RecordBody.parsed (fun _ => true) [] false ""),
         ("c", RecordBody.raisesOther),
         ("d", RecordBody.parsed (fun _ => true) [] true "x")]).count "d" = 1 := by
  have hnd : ((["a", "b", "c", "d"] : List String)).Nodup := by decide
  have h := batch_failure_classification
    [("a", RecordBody.badJson),
     ("b", RecordBody.parsed (fun _ => true) [] false ""),
     ("c", RecordBody.raisesOther),
     ("d", RecordBody.parsed (fun _ => true) [] true "x")] hnd
  refine ⟨h.1 "a" (List.mem_cons_self _ _), ?_, ?_⟩
  · exact h.2.1 "c"
      (List.mem_cons_of_mem _ (List.mem_cons_of_mem _ (List.mem_cons_self _ _)))
  · exact h.2.2 "d" (fun _ => true) [] true "x"
      (List.mem_cons_of_mem _ (List.mem_cons_of_mem _
        (List.mem_cons_of_mem _ (List.mem_cons_self _ _)))) rfl

theorem deliveredWs_append (l₁ l₂ : List (WsMsg × SinkRes)) :
    deliveredWs (l₁ ++ l₂) = deliveredWs l₁ ++ deliveredWs l₂ := by
  simp [deliveredWs, List.filter_append]

theorem deliveredPs_append (l₁ l₂ : List (PubCall × Bool)) :
    deliveredPs (l₁ ++ l₂) = deliveredPs l₁ ++ deliveredPs l₂ := by
  simp [deliveredPs, List.filter_append]

theorem deliveredWs_len (l : List (WsMsg × SinkRes)) :
    (deliveredWs l).length ≤ l.length := by
  simp only [deliveredWs, List.length_map]
  exact List.length_filter_le _ _

theorem deliveredPs_len (l : List (PubCall × Bool)) :
    (deliveredPs l).length ≤ l.length := by
  simp only [deliveredPs, List.length_map]
  exact List.length_filter_le _ _

theorem deliveredWs_cons_otherError (x : WsMsg) (l : List (WsMsg × SinkRes)) :
    deliveredWs ((x, SinkRes.otherError) :: l) = deliveredWs l := by
  simp [deliveredWs]

/-- Delivered messages of a token-loop prefix: token sequence numbers are
pairwise increasing and no delivered message is terminal. -/
theorem delivered_msgs_props (ms : List (WsMsg × SinkRes))
    (hseq : ms.filterMap (fun p => wsSeq p.1) = List.range' 1 ms.length)
    (htok : ∀ p ∈ ms, isTerminalWs p.1 = false) :
    ((deliveredWs ms).filterMap wsSeq).Pairwise (· < ·)
    ∧ ∀ x ∈ deliveredWs ms, isTerminalWs x = false := by
  constructor
  · have hcomp : (deliveredWs ms).filterMap wsSeq =
        (ms.filter fun p => match p.2 with
          | SinkRes.ok => true
          | _ => false).filterMap (fun p => wsSeq p.1) := by
      rw [deliveredWs, List.filterMap_map]
      rfl
    have hsub : List.Sublist ((deliveredWs ms).filterMap wsSeq)
        (ms.filterMap (fun p => wsSeq p.1)) := by
      rw [hcomp]
      exact List.Sublist.filterMap _ (List.filter_sublist ms)
    rw [hseq] at hsub
    exact List.Pairwise.sublist hsub (List.pairwise_lt_range' 1 ms.length)
  · intro x hx
    simp only [deliveredWs, List.mem_map] at hx
    obtain ⟨p, hp, rfl⟩ := hx
    exact htok p (List.mem_of_mem_filter hp)

/-- Appending a short terminal tail preserves the delivered-message
invariants: token sequences stay pairwise increasing and every delivered
message except possibly the last stays non-terminal. -/
theorem delivered_tail_props (ms tail : List (WsMsg × SinkRes))
    (h1 : ((deliveredWs ms).filterMap wsSeq).Pairwise (· < ·))
    (h2 : ∀ x ∈ deliveredWs ms, isTerminalWs x = false)
    (h3 : ∀ p ∈ tail, wsSeq p.1 = none)
    (h4 : (deliveredWs tail).length ≤ 1) :
    ((deliveredWs (ms ++ tail)).filterMap wsSeq).Pairwise (· < ·)
    ∧ ∀ x ∈ (deliveredWs (ms ++ tail)).dropLast, isTerminalWs x = false := by
  have happ := deliveredWs_append ms tail
  have hnilseq : (deliveredWs tail).filterMap wsSeq = [] := by
    rw [List.filterMap_eq_nil_iff]
    intro x hx
    simp only [deliveredWs, List.mem_map] at hx
    obtain ⟨p, hp, rfl⟩ := hx
    exact h3 p (List.mem_of_mem_filter hp)
  constructor
  · rw [happ, List.filterMap_append, hnilseq, List.append_nil]
    exact h1
  · intro x hx
    rw [happ] at hx
    cases htl : deliveredWs tail with
    | nil =>
      rw [htl, List.append_nil] at hx
      exact h2 x ((List.dropLast_sublist _).subset hx)
    | cons y ys =>
      have hys : ys = [] := by
        rw [htl] at h4
        simpa using h4
      subst hys
      rw [htl, List.dropLast_concat] at hx
      exact h2 x hx

theorem deliveredPs_seq_sublist (l : List (PubCall × Bool)) :
    List.Sublist ((deliveredPs l).map (fun c => c.sequence))
      (l.map (fun p => p.1.sequence)) := by
  have hcomp : (deliveredPs l).map (fun c => c.sequence) =
      (l.filter fun p => p.2).map (fun p => p.1.sequence) := by
    rw [deliveredPs, List.map_map]
    rfl
  rw [hcomp]
  exact List.Sublist.map _ (List.filter_sublist l)

theorem deliveredPs_nonterm_from (cs : List (PubCall × Bool))
    (h : ∀ p ∈ cs, p.1.is_complete = false) :
    ∀ x ∈ deliveredPs cs, x.is_complete = false := by
  intro x hx
  simp only [deliveredPs, List.mem_map] at hx
  obtain ⟨p, hp, rfl⟩ := hx
  exact h p (List.mem_of_mem_filter hp)

theorem deliveredPs_dropLast_nonterm (cs tail : List (PubCall × Bool))
    (h2 : ∀ x ∈ deliveredPs cs, x.is_complete = false)
    (h4 : (deliveredPs tail).length ≤ 1) :
    ∀ x ∈ (deliveredPs (cs ++ tail)).dropLast, x.is_complete = false := by
  intro x hx
  rw [deliveredPs_append] at hx
  cases htl : deliveredPs tail with
  | nil =>
    rw [htl, List.append_nil] at hx
    exact h2 x ((List.dropLast_sublist _).subset hx)
  | cons y ys =>
    have hys : ys = [] := by
      rw [htl] at h4
      simpa using h4
    subst hys
    rw [htl, List.dropLast_concat] at hx
    exact h2 x hx

theorem pairwise_range'_concat_single (n v : Nat) (h : n < v) :
    (List.range' 1 n ++ [v]).Pairwise (· < ·) := by
  rw [List.pairwise_append]
  refine ⟨List.pairwise_lt_range' 1 n, List.pairwise_singleton _ _, ?_⟩
  intro a ha b hb
  rw [List.mem_range'_1] at ha
  simp only [List.mem_singleton] at hb
  subst hb
  omega

theorem deliveredPs_all_true (l : List (PubCall × Bool))
    (h : ∀ p ∈ l, p.2 = true) : deliveredPs l = l.map Prod.fst := by
  rw [deliveredPs, List.filter_eq_self.mpr h]

/-- Counterexample to C5 as stated: on a failed broadcast run whose
source yielded 999 fragments, the fragments delivered to subscribers
carry sequence numbers 1..999 followed by the error fragment's fixed
sequence 999 — not strictly increasing. -/
theorem sequence_monotonicity_cex :
    ((deliveredPs (process_streaming_request (fun _ => true)
        (List.replicate 999 (SrcItem.chunkOf "content_block_delta" "x"))
        true "boom").1).map (fun c => c.sequence)) =
      List.range' 1 999 ++ [999]
    ∧ ¬ (List.range' 1 999 ++ [999]).Pairwise (· < ·) := by
  have hsrc : List.replicate 999 (SrcItem.chunkOf "content_block_delta" "x")
      = (List.replicate 999 "x").map
          (fun t => SrcItem.chunkOf "content_block_delta" t) := by
    rw [List.map_replicate]
  have hf : (List.replicate 999
        (SrcItem.chunkOf "content_block_delta" "x")).filterMap deltaText =
      List.replicate 999 "x" := by
    rw [hsrc]
    exact filterMap_deltaText_map _
      (fun t ht => by rw [List.mem_replicate] at ht; rw [ht.2]; decide)
  have hunfold : (process_streaming_request (fun _ => true)
      (List.replicate 999 (SrcItem.chunkOf "content_block_delta" "x"))
      true "boom").1 =
      (psLoop (fun _ => true)
        (List.replicate 999 (SrcItem.chunkOf "content_block_delta" "x"))
        0 0).calls ++ [(⟨"Error: " ++ "boom", true, 999⟩, true)] := rfl
  constructor
  · have htrue : ∀ p ∈ (process_streaming_request (fun _ => true)
        (List.replicate 999 (SrcItem.chunkOf "content_block_delta" "x"))
        true "boom").1, p.2 = true := by
      rw [hunfold]
      intro p hp
      rcases List.mem_append.mp hp with hp | hp
      · have hall := psLoop_allOk (fun _ => true)
          (List.replicate 999 (SrcItem.chunkOf "content_block_delta" "x"))
          0 0 (fun i _ => rfl)
        rw [hall] at hp
        obtain ⟨q, hq, rfl⟩ := List.mem_map.mp hp
        rfl
      · simp only [List.mem_singleton] at hp
        rw [hp]
    rw [deliveredPs_all_true _ htrue]
    have hmm : ((process_streaming_request (fun _ => true)
        (List.replicate 999 (SrcItem.chunkOf "content_block_delta" "x"))
        true "boom").1.map Prod.fst).map (fun c => c.sequence) =
        (process_streaming_request (fun _ => true)
          (List.replicate 999 (SrcItem.chunkOf "content_block_delta" "x"))
          true "boom").1.map (fun p => p.1.sequence) := by
      rw [List.map_map]
      rfl
    rw [hmm]
    have hseq := psLoop_seq (fun _ => true)
      (List.replicate 999 (SrcItem.chunkOf "content_block_delta" "x")) 0 0
    rw [hf, List.length_replicate] at hseq
    have h01 : (0 : Nat) + 1 = 1 := rfl
    rw [h01] at hseq
    rw [hunfold, List.map_append, hseq]
    rfl
  · intro h
    rw [List.pairwise_append] at h
    have h999 : (999 : Nat) ∈ List.range' 1 999 := by
      rw [List.mem_range'_1]; omega
    have hlt := h.2.2 999 h999 999 (by simp)
    omega

/-- C5 as amended: within one session the delivered fragments obey the
ordering and single-terminal invariants with one exception.  In the
websocket variant, on every run, the delivered token sequence numbers are
strictly increasing and every delivered message except possibly the last
is non-terminal (so at most one delivered message is terminal and it is
the last).  In the broadcast variant the same at-most-one-terminal-last
property always holds, and the delivered sequence numbers are strictly
increasing on every completed run; on failed runs they are strictly
increasing provided at most 998 fragments were sequenced, the error
fragment's fixed sequence 999 breaking monotonicity beyond that. -/
theorem session_invariants (wsink : Nat → SinkRes) (psink : Nat → Bool)
    (src : List SrcItem) (sf : Bool) (m em : String) :
    ((deliveredWs (wsRelay wsink src sf em).1).filterMap wsSeq).Pairwise (· < ·)
    ∧ (∀ x ∈ (deliveredWs (wsRelay wsink src sf em).1).dropLast,
        isTerminalWs x = false)
    ∧ (∀ x ∈ (deliveredPs
          (process_streaming_request psink src sf m).1).dropLast,
        x.is_complete = false)
    ∧ (sf = false →
        ((deliveredPs (process_streaming_request psink src sf m).1).map
          (fun c => c.sequence)).Pairwise (· < ·))
    ∧ (sf = true → (src.filterMap deltaText).length ≤ 998 →
        ((deliveredPs (process_streaming_request psink src sf m).1).map
          (fun c => c.sequence)).Pairwise (· < ·)) := by
  obtain ⟨hws1, hws2⟩ :
      ((deliveredWs (wsRelay wsink src sf em).1).filterMap wsSeq).Pairwise
          (· < ·)
      ∧ ∀ x ∈ (deliveredWs (wsRelay wsink src sf em).1).dropLast,
          isTerminalWs x = false := by
    rcases hs : wsLoop wsink src 0 0 with ⟨ms, cnt, idx, ex⟩
    have hseq := wsLoop_seq wsink src 0 0
    have htok := wsLoop_tok wsink src 0 0
    rw [hs] at hseq htok
    have hprops := delivered_msgs_props ms (by simpa using hseq)
      (fun p hp => htok p hp)
    cases ex with
    | sinkRaise =>
      have heq : wsRelay wsink src sf em =
          (ms ++ [(WsMsg.error em, wsink idx)], Outcome.failed cnt) := by
        simp [wsRelay, hs, wsFinish]
      rw [heq]
      exact delivered_tail_props ms [(WsMsg.error em, wsink idx)]
        hprops.1 hprops.2
        (by intro p hp; simp only [List.mem_singleton] at hp; subst hp; rfl)
        (le_trans (deliveredWs_len _) (by simp))
    | natural =>
      cases sf with
      | true =>
        have heq : wsRelay wsink src true em =
            (ms ++ [(WsMsg.error em, wsink idx)], Outcome.failed cnt) := by
          simp [wsRelay, hs, wsFinish]
        rw [heq]
        exact delivered_tail_props ms [(WsMsg.error em, wsink idx)]
          hprops.1 hprops.2
          (by intro p hp; simp only [List.mem_singleton] at hp; subst hp; rfl)
          (le_trans (deliveredWs_len _) (by simp))
      | false =>
        cases hr : wsink idx with
        | ok =>
          have heq : wsRelay wsink src false em =
              (ms ++ [(WsMsg.complete cnt, SinkRes.ok)],
               Outcome.completed cnt) := by
            simp [wsRelay, hs, wsFinish, hr]
          rw [heq]
          exact delivered_tail_props ms [(WsMsg.complete cnt, SinkRes.ok)]
            hprops.1 hprops.2
            (by intro p hp; simp only [List.mem_singleton] at hp
                subst hp; rfl)
            (le_trans (deliveredWs_len _) (by simp))
        | gone =>
          have heq : wsRelay wsink src false em =
              (ms ++ [(WsMsg.complete cnt, SinkRes.gone)],
               Outcome.completed cnt) := by
            simp [wsRelay, hs, wsFinish, hr]
          rw [heq]
          exact delivered_tail_props ms [(WsMsg.complete cnt, SinkRes.gone)]
            hprops.1 hprops.2
            (by intro p hp; simp only [List.mem_singleton] at hp
                subst hp; rfl)
            (le_trans (deliveredWs_len _) (by simp))
        | otherError =>
          have heq : wsRelay wsink src false em =
              (ms ++ [(WsMsg.complete cnt, SinkRes.otherError),
                      (WsMsg.error em, wsink (idx + 1))],
               Outcome.failed cnt) := by
            simp [wsRelay, hs, wsFinish, hr]
          rw [heq]
          exact delivered_tail_props ms
            [(WsMsg.complete cnt, SinkRes.otherError),
             (WsMsg.error em, wsink (idx + 1))]
            hprops.1 hprops.2
            (by intro p hp
                simp only [List.mem_cons, List.mem_singleton,
                  List.not_mem_nil, or_false] at hp
                rcases hp with rfl | rfl <;> rfl)
            (by rw [deliveredWs_cons_otherError]
                exact le_trans (deliveredWs_len _) (by simp))
    | goneBreak =>
      cases hr : wsink idx with
      | ok =>
        have heq : wsRelay wsink src sf em =
            (ms ++ [(WsMsg.complete cnt, SinkRes.ok)],
             Outcome.sinkGone cnt) := by
          simp [wsRelay, hs, wsFinish, hr]
        rw [heq]
        exact delivered_tail_props ms [(WsMsg.complete cnt, SinkRes.ok)]
          hprops.1 hprops.2
          (by intro p hp; simp only [List.mem_singleton] at hp
              subst hp; rfl)
          (le_trans (deliveredWs_len _) (by simp))
      | gone =>
        have heq : wsRelay wsink src sf em =
            (ms ++ [(WsMsg.complete cnt, SinkRes.gone)],
             Outcome.sinkGone cnt) := by
          simp [wsRelay, hs, wsFinish, hr]
        rw [heq]
        exact delivered_tail_props ms [(WsMsg.complete cnt, SinkRes.gone)]
          hprops.1 hprops.2
          (by intro p hp; simp only [List.mem_singleton] at hp
              subst hp; rfl)
          (le_trans (deliveredWs_len _) (by simp))
      | otherError =>
        have heq : wsRelay wsink src sf em =
            (ms ++ [(WsMsg.complete cnt, SinkRes.otherError),
                    (WsMsg.error em, wsink (idx + 1))],
             Outcome.failed cnt) := by
          simp [wsRelay, hs, wsFinish, hr]
        rw [heq]
        exact delivered_tail_props ms
          [(WsMsg.complete cnt, SinkRes.otherError),
           (WsMsg.error em, wsink (idx + 1))]
          hprops.1 hprops.2
          (by intro p hp
              simp only [List.mem_cons, List.mem_singleton,
                List.not_mem_nil, or_false] at hp
              rcases hp with rfl | rfl <;> rfl)
          (by rw [deliveredWs_cons_otherError]
              exact le_trans (deliveredWs_len _) (by simp))
  refine ⟨hws1, hws2, ?_, ?_, ?_⟩
  · cases sf with
    | false =>
      have hrun : (process_streaming_request psink src false m).1 =
          (psLoop psink src 0 0).calls ++
            [(⟨"", true, (psLoop psink src 0 0).token_count + 1⟩,
              psink (psLoop psink src 0 0).callIdx)] := rfl
      rw [hrun]
      exact deliveredPs_dropLast_nonterm _ _
        (deliveredPs_nonterm_from _ (psLoop_nonterm psink src 0 0))
        (le_trans (deliveredPs_len _) (by simp))
    | true =>
      have hrun : (process_streaming_request psink src true m).1 =
          (psLoop psink src 0 0).calls ++
            [(⟨"Error: " ++ m, true, 999⟩,
              psink (psLoop psink src 0 0).callIdx)] := rfl
      rw [hrun]
      exact deliveredPs_dropLast_nonterm _ _
        (deliveredPs_nonterm_from _ (psLoop_nonterm psink src 0 0))
        (le_trans (deliveredPs_len _) (by simp))
  · intro hsf
    subst hsf
    have hrun : (process_streaming_request psink src false m).1 =
        (psLoop psink src 0 0).calls ++
          [(⟨"", true, (psLoop psink src 0 0).token_count + 1⟩,
            psink (psLoop psink src 0 0).callIdx)] := rfl
    have hseqq := psLoop_seq psink src 0 0
    have h01 : (0 : Nat) + 1 = 1 := rfl
    rw [h01] at hseqq
    have hcnt := (psLoop_count psink src 0 0).1
    have hmapfull : (process_streaming_request psink src false m).1.map
        (fun p => p.1.sequence) =
        List.range' 1 (src.filterMap deltaText).length
          ++ [(src.filterMap deltaText).length + 1] := by
      rw [hrun, List.map_append, hseqq]
      simp only [List.map_cons, List.map_nil]
      rw [hcnt]
      simp
    have hsub := deliveredPs_seq_sublist
      (process_streaming_request psink src false m).1
    rw [hmapfull] at hsub
    exact List.Pairwise.sublist hsub
      (pairwise_range'_concat_single _ _ (by omega))
  · intro hsf hbound
    subst hsf
    have hrun : (process_streaming_request psink src true m).1 =
        (psLoop psink src 0 0).calls ++
          [(⟨"Error: " ++ m, true, 999⟩,
            psink (psLoop psink src 0 0).callIdx)] := rfl
    have hseqq := psLoop_seq psink src 0 0
    have h01 : (0 : Nat) + 1 = 1 := rfl
    rw [h01] at hseqq
    have hmapfull : (process_streaming_request psink src true m).1.map
        (fun p => p.1.sequence) =
        List.range' 1 (src.filterMap deltaText).length ++ [999] := by
      rw [hrun, List.map_append, hseqq]
      simp
    have hsub := deliveredPs_seq_sublist
      (process_streaming_request psink src true m).1
    rw [hmapfull] at hsub
    exact List.Pairwise.sublist hsub
      (pairwise_range'_concat_single _ _ (by omega))

/-- Witness for the amended C5 on a one-fragment failed run. -/
theorem session_invariants_witness :
    ((deliveredWs (wsRelay (fun _ => SinkRes.ok)
        [SrcItem.chunkOf "content_block_delta" "A"] true "em").1).filterMap
        wsSeq).Pairwise (· < ·)
    ∧ ((deliveredPs (process_streaming_request (fun _ => true)
        [SrcItem.chunkOf "content_block_delta" "A"] true "m").1).map
        (fun c => c.sequence)).Pairwise (· < ·) :=
  ⟨(session_invariants (fun _ => SinkRes.ok) (fun _ => true)
      [SrcItem.chunkOf "content_block_delta" "A"] true "m" "em").1,
   (session_invariants (fun _ => SinkRes.ok) (fun _ => true)
      [SrcItem.chunkOf "content_block_delta" "A"] true "m" "em").2.2.2.2 rfl
     (by decide)⟩
